import Mathlib

set_option autoImplicit false

/-!
Shallow embedding of the triple-layer persistence manager in
js/db-manager.js (class DBManager), together with the pieces of
js/groups.js (isFirebaseAvailable) and the utility file (safeJSONParse)
that it relies on.

Modelling conventions:
* localStorage is modelled as the record map plus the per-collection
  index map (keys `collection_id` and `collection_index`).
* IndexedDB object stores are modelled as association lists keyed by
  (collection, primary key); `this.db === null` is a Boolean.
* The Firebase realtime database is an association list keyed by the
  path (collection, id); isFirebaseAvailable() is a Boolean.
* Each fallible environment call (localStorage quota, IndexedDB request
  failure, network failure) is driven by an explicit outcome parameter,
  so theorems quantify over every behaviour of the media.
* A promise rejection that the source awaits is an `Except.error`;
  an exception the source catches locally never surfaces.
-/

namespace Hoopin

/-- A persisted record: its primary-key field (`groupId`/`teamId`/`playerId`),
the remaining fields collapsed into an opaque payload, and `updatedAt`. -/
structure Rec where
  rid : String
  payload : String
  updatedAt : Nat
deriving DecidableEq, Repr

/-- Caller-supplied data before the coordinator stamps it. -/
structure RecData where
  rid : String
  payload : String
deriving DecidableEq, Repr

/-- Embeds the spread `{ ...data, updatedAt: timestamp }` in DBManager.save. -/
def stamp (d : RecData) (t : Nat) : Rec :=
  ⟨d.rid, d.payload, t⟩

/-- A storage key: (collection, record id). -/
abbrev Key := String × String

/-- Lookup in an association list (first match). -/
def lookupA {K V : Type} [DecidableEq K] (k : K) : List (K × V) → Option V
  | [] => none
  | p :: l => if p.1 = k then some p.2 else lookupA k l

/-- Upsert in an association list (replace the first match, else append). -/
def putA {K V : Type} [DecidableEq K] (k : K) (v : V) : List (K × V) → List (K × V)
  | [] => [(k, v)]
  | p :: l => if p.1 = k then (k, v) :: l else p :: putA k v l

/-- Remove every binding of a key from an association list. -/
def eraseA {K V : Type} [DecidableEq K] (k : K) : List (K × V) → List (K × V)
  | [] => []
  | p :: l => if p.1 = k then eraseA k l else p :: eraseA k l

/-- What localStorage holds under a record key: a well-formed serialized
record, or text that `safeJSONParse` cannot parse. -/
inductive StoredVal where
  | good (r : Rec)
  | corrupt
deriving DecidableEq, Repr

/-- The localStorage tier: the record entries (key `collection_id`) and the
per-collection index entries (key `collection_index`, a JSON array of ids). -/
structure LocalFast where
  recs : List (Key × StoredVal)
  index : List (String × List String)
deriving DecidableEq, Repr

/-- Outcome of one localStorage write-path call (its body is wrapped in
try/catch, so a throw is swallowed after any effects already made). -/
inductive LsWriteOutcome where
  | ok
  /-- the first setItem/removeItem throws: no effect at all -/
  | failEarly
  /-- the record operation succeeded but the index read/update throws:
  the index is left unchanged -/
  | failLate
deriving DecidableEq, Repr

/-- DBManager.saveToLocalStorage: setItem the record, then read the index
with safeJSONParse (fallback []), append the id if absent, and write the
index back; all inside try/catch (errors are logged and swallowed). -/
def saveToLocalStorage (o : LsWriteOutcome) (st : LocalFast) (c id : String)
    (r : Rec) : LocalFast :=
  match o with
  | .failEarly => st
  | .failLate => { st with recs := putA (c, id) (StoredVal.good r) st.recs }
  | .ok =>
    let recs' := putA (c, id) (StoredVal.good r) st.recs
    let idx := (lookupA c st.index).getD []
    if id ∈ idx then { st with recs := recs' }
    else { st with recs := recs', index := putA c (idx ++ [id]) st.index }

/-- DBManager.getFromLocalStorage: getItem plus safeJSONParse, inside a
try/catch returning null; a corrupt entry or an absent key is null. -/
def getFromLocalStorage (throws : Bool) (st : LocalFast) (c id : String) :
    Option Rec :=
  if throws then none
  else
    match lookupA (c, id) st.recs with
    | some (StoredVal.good r) => some r
    | some StoredVal.corrupt => none
    | none => none

/-- DBManager.getAllFromLocalStorage: map the collection index over
getFromLocalStorage and filter out nulls; try/catch returns []. -/
def getAllFromLocalStorage (throws : Bool) (st : LocalFast) (c : String) :
    List Rec :=
  if throws then []
  else ((lookupA c st.index).getD []).filterMap
    (fun id => getFromLocalStorage false st c id)

/-- DBManager.deleteFromLocalStorage: removeItem the record, then filter the
id out of the index and write it back; all inside try/catch. -/
def deleteFromLocalStorage (o : LsWriteOutcome) (st : LocalFast) (c id : String) :
    LocalFast :=
  match o with
  | .failEarly => st
  | .failLate => { st with recs := eraseA (c, id) st.recs }
  | .ok =>
    let recs' := eraseA (c, id) st.recs
    let idx := (lookupA c st.index).getD []
    { st with recs := recs',
              index := putA c (idx.filter (fun i => decide (i ≠ id))) st.index }

/-- Outcome of one IndexedDB request issued inside a try/catch:
the request succeeds, the request fires onerror (the wrapping promise
rejects, so the awaiting caller throws), or the transaction setup throws
synchronously (caught locally; the operation resolves with no effect). -/
inductive IdbOutcome where
  | ok
  | reject
  | caught
deriving DecidableEq, Repr

/-- A syncQueue operation tag ('save' or 'delete'). -/
inductive QOp where
  | save
  | del
deriving DecidableEq, Repr

/-- A syncQueue entry `{collection, id, data, operation, timestamp}`.
The store was created with keyPath 'id', so the entry's IndexedDB key is
its `id` field — the record id string. -/
structure QEntry where
  collection : String
  id : String
  data : Option Rec
  operation : QOp
  timestamp : Nat
deriving DecidableEq, Repr

/-- The whole observable state of the system as DBManager manipulates it. -/
structure Sys where
  /-- localStorage -/
  fast : LocalFast
  /-- whether this.db is non-null (IndexedDB opened successfully) -/
  dbAvailable : Bool
  /-- the IndexedDB per-collection object stores, keyed by (collection, keyPath value) -/
  tables : List (Key × Rec)
  /-- the syncQueue object store (entries keyed by their record id) -/
  queue : List QEntry
  /-- the Firebase realtime database, keyed by path (collection, id) -/
  remote : List (Key × Rec)
  /-- navigator.onLine as tracked in this.isOnline -/
  isOnline : Bool
  /-- isFirebaseAvailable() -/
  fbAvailable : Bool
deriving DecidableEq, Repr

/-- DBManager.saveToIndexedDB: resolves untouched when this.db is null;
store.put(data) keys the row by the record's own keyPath field (data
itself, not the id argument); a request error rejects; a synchronous
exception is caught and the promise resolves with no effect. -/
def saveToIndexedDB (o : IdbOutcome) (dbAvailable : Bool)
    (tables : List (Key × Rec)) (c _id : String) (r : Rec) :
    Except Unit (List (Key × Rec)) :=
  if !dbAvailable then Except.ok tables
  else
    match o with
    | .ok => Except.ok (putA (c, r.rid) r tables)
    | .reject => Except.error ()
    | .caught => Except.ok tables

/-- DBManager.getFromIndexedDB: null without this.db; store.get(id);
a request error rejects; a synchronous exception resolves null. -/
def getFromIndexedDB (o : IdbOutcome) (dbAvailable : Bool)
    (tables : List (Key × Rec)) (c id : String) : Except Unit (Option Rec) :=
  if !dbAvailable then Except.ok none
  else
    match o with
    | .ok => Except.ok (lookupA (c, id) tables)
    | .reject => Except.error ()
    | .caught => Except.ok none

/-- The rows of one collection's object store, as store.getAll returns them. -/
def tablesOf (tables : List (Key × Rec)) (c : String) : List Rec :=
  (tables.filter (fun p => decide (p.1.1 = c))).map Prod.snd

/-- DBManager.getAllFromIndexedDB: [] without this.db; store.getAll();
a request error rejects; a synchronous exception resolves []. -/
def getAllFromIndexedDB (o : IdbOutcome) (dbAvailable : Bool)
    (tables : List (Key × Rec)) (c : String) : Except Unit (List Rec) :=
  if !dbAvailable then Except.ok []
  else
    match o with
    | .ok => Except.ok (tablesOf tables c)
    | .reject => Except.error ()
    | .caught => Except.ok []

/-- Firebase ref.set(value): setting null removes the node, anything else
stores it at the path. -/
def fbSet (c id : String) (d : Option Rec) (rem : List (Key × Rec)) :
    List (Key × Rec) :=
  match d with
  | some r => putA (c, id) r rem
  | none => eraseA (c, id) rem

/-- DBManager.saveToFirebase: silently returns when isFirebaseAvailable()
is false; otherwise ref.set(data); the catch logs and rethrows, so a
network failure propagates to the caller. -/
def saveToFirebase (ok avail : Bool) (rem : List (Key × Rec)) (c id : String)
    (d : Option Rec) : Except Unit (List (Key × Rec)) :=
  if !avail then Except.ok rem
  else if ok then Except.ok (fbSet c id d rem)
  else Except.error ()

/-- DBManager.getFromFirebase: null when unavailable; ref.once('value');
the catch returns null, so a network failure never propagates. -/
def getFromFirebase (ok avail : Bool) (rem : List (Key × Rec)) (c id : String) :
    Option Rec :=
  if !avail then none
  else if ok then lookupA (c, id) rem
  else none

/-- The values under one collection path, as Object.values of the snapshot. -/
def remoteValsOf (rem : List (Key × Rec)) (c : String) : List Rec :=
  (rem.filter (fun p => decide (p.1.1 = c))).map Prod.snd

/-- DBManager.getAllFromFirebase: [] when unavailable; Object.values of the
collection subtree; the catch returns [] on failure. -/
def getAllFromFirebase (ok avail : Bool) (rem : List (Key × Rec)) (c : String) :
    List Rec :=
  if !avail then []
  else if ok then remoteValsOf rem c
  else []

/-- DBManager.deleteFromFirebase: silently returns when unavailable;
ref.remove(); the catch logs and rethrows. -/
def deleteFromFirebase (ok avail : Bool) (rem : List (Key × Rec))
    (c id : String) : Except Unit (List (Key × Rec)) :=
  if !avail then Except.ok rem
  else if ok then Except.ok (eraseA (c, id) rem)
  else Except.error ()

/-- DBManager.queueForSync: returns untouched when this.db is null; builds
`{collection, id, data, operation, timestamp}` and store.add's it. The
syncQueue store keyPath is 'id' and the built object carries `id` (the
record id), so that string is the entry's key; add with a key already in
the store fails (ConstraintError) and the entry is dropped, and any other
add failure is caught and logged. queueForSync itself never throws. -/
def queueForSync (addOk : Bool) (st : Sys) (c id : String) (d : Option Rec)
    (op : QOp) (t : Nat) : Sys :=
  if !st.dbAvailable then st
  else if st.queue.any (fun e => decide (e.id = id)) then st
  else if addOk then { st with queue := st.queue ++ [⟨c, id, d, op, t⟩] }
  else st

/-- The JavaScript value a DBManager method hands back to its caller. -/
inductive JsVal where
  | bool (b : Bool)
  | record (r : Rec)
deriving DecidableEq, Repr

/-- Decidable equality of call results, so concrete runs can be checked. -/
instance {e a : Type} [DecidableEq e] [DecidableEq a] : DecidableEq (Except e a) :=
  fun x y =>
    match x, y with
    | Except.ok v, Except.ok w =>
      if h : v = w then Decidable.isTrue (by rw [h])
      else Decidable.isFalse (fun hh => h (Except.ok.inj hh))
    | Except.error v, Except.error w =>
      if h : v = w then Decidable.isTrue (by rw [h])
      else Decidable.isFalse (fun hh => h (Except.error.inj hh))
    | Except.ok _, Except.error _ => Decidable.isFalse (fun hh => Except.noConfusion hh)
    | Except.error _, Except.ok _ => Decidable.isFalse (fun hh => Except.noConfusion hh)

/-- Environment behaviour during one DBManager.save call. -/
structure SaveBeh where
  /-- Date.now() at the start of the call -/
  now : Nat
  /-- the localStorage write -/
  ls : LsWriteOutcome
  /-- the IndexedDB put -/
  idb : IdbOutcome
  /-- whether the Firebase set succeeds -/
  fbOk : Bool
  /-- whether the syncQueue add succeeds (when its key is fresh) -/
  addOk : Bool
deriving DecidableEq, Repr

namespace DBManager

/-- DBManager.save: stamp updatedAt, write localStorage, await the
IndexedDB put, then either attempt Firebase (when this.isOnline and
isFirebaseAvailable()) or queue for sync; the catch rethrows, and the
success value returned to the caller is the boolean true. -/
def save (b : SaveBeh) (st : Sys) (c id : String) (d : RecData) :
    Except Unit JsVal × Sys :=
  let r := stamp d b.now
  let st1 := { st with fast := saveToLocalStorage b.ls st.fast c id r }
  match saveToIndexedDB b.idb st1.dbAvailable st1.tables c id r with
  | Except.error e => (Except.error e, st1)
  | Except.ok tbl =>
    let st2 := { st1 with tables := tbl }
    if st2.isOnline && st2.fbAvailable then
      match saveToFirebase b.fbOk st2.fbAvailable st2.remote c id (some r) with
      | Except.error e => (Except.error e, st2)
      | Except.ok rem => (Except.ok (JsVal.bool true), { st2 with remote := rem })
    else
      (Except.ok (JsVal.bool true), queueForSync b.addOk st2 c id (some r) QOp.save b.now)

/-- Environment behaviour during one DBManager.get call. -/
structure GetBeh where
  /-- the localStorage read -/
  lsGetThrows : Bool
  /-- the IndexedDB get -/
  idbGet : IdbOutcome
  /-- whether the Firebase read succeeds -/
  fbOk : Bool
  /-- the localStorage backfill write -/
  lsPut : LsWriteOutcome
  /-- the IndexedDB backfill put (remote-hit path) -/
  idbPut : IdbOutcome
deriving DecidableEq, Repr

/-- The try-block body of DBManager.get: localStorage first, then
IndexedDB (backfilling localStorage on a hit), then Firebase when online
and available (backfilling both local tiers). The awaited IndexedDB
operations can reject, which escapes this body. -/
def getBody (b : GetBeh) (st : Sys) (c id : String) :
    Except Unit (Option Rec) × Sys :=
  match getFromLocalStorage b.lsGetThrows st.fast c id with
  | some r => (Except.ok (some r), st)
  | none =>
    match getFromIndexedDB b.idbGet st.dbAvailable st.tables c id with
    | Except.error e => (Except.error e, st)
    | Except.ok (some r) =>
      (Except.ok (some r),
        { st with fast := saveToLocalStorage b.lsPut st.fast c id r })
    | Except.ok none =>
      if st.isOnline && st.fbAvailable then
        match getFromFirebase b.fbOk st.fbAvailable st.remote c id with
        | some r =>
          let st1 := { st with fast := saveToLocalStorage b.lsPut st.fast c id r }
          match saveToIndexedDB b.idbPut st1.dbAvailable st1.tables c id r with
          | Except.error e => (Except.error e, st1)
          | Except.ok tbl => (Except.ok (some r), { st1 with tables := tbl })
        | none => (Except.ok none, st)
      else (Except.ok none, st)

/-- DBManager.get: the try-block body wrapped in the outer catch that
turns every escaped error into a null result. -/
def get (b : GetBeh) (st : Sys) (c id : String) :
    Except Unit (Option Rec) × Sys :=
  match getBody b st c id with
  | (Except.error _, st') => (Except.ok none, st')
  | (Except.ok v, st') => (Except.ok v, st')

/-- Environment behaviour during one DBManager.getAll call. -/
structure GetAllBeh where
  /-- the localStorage bulk read -/
  lsThrows : Bool
  /-- the IndexedDB getAll -/
  idbAll : IdbOutcome
  /-- whether the Firebase bulk read succeeds -/
  fbOk : Bool
  /-- the localStorage backfill writes -/
  lsPut : LsWriteOutcome
  /-- the IndexedDB backfill puts (remote path) -/
  idbPut : IdbOutcome
deriving DecidableEq, Repr

/-- The per-item localStorage backfill loop in DBManager.getAll: the id is
read back from the record's own `{singular}Id` field. -/
def backfillFast (o : LsWriteOutcome) (fast : LocalFast) (c : String)
    (items : List Rec) : LocalFast :=
  items.foldl (fun f r => saveToLocalStorage o f c r.rid r) fast

/-- The per-item backfill loop of the Firebase branch of DBManager.getAll:
each record is written to localStorage and to IndexedDB; the forEach
callback is async and nothing awaits it, so an IndexedDB rejection is
swallowed and simply leaves the table unchanged. -/
def backfillBoth (lo : LsWriteOutcome) (io : IdbOutcome) (dbAv : Bool)
    (fast : LocalFast) (tables : List (Key × Rec)) (c : String)
    (items : List Rec) : LocalFast × List (Key × Rec) :=
  items.foldl
    (fun acc r =>
      (saveToLocalStorage lo acc.1 c r.rid r,
        match saveToIndexedDB io dbAv acc.2 c r.rid r with
        | Except.ok t => t
        | Except.error _ => acc.2))
    (fast, tables)

/-- DBManager.getAll: return the localStorage set if non-empty, else the
IndexedDB set (backfilling localStorage) if non-empty, else — when online
and Firebase is available — the Firebase set (backfilling both local
tiers) if non-empty, else []; the outer catch returns []. -/
def getAll (b : GetAllBeh) (st : Sys) (c : String) : List Rec × Sys :=
  let l1 := getAllFromLocalStorage b.lsThrows st.fast c
  if l1 ≠ [] then (l1, st)
  else
    match getAllFromIndexedDB b.idbAll st.dbAvailable st.tables c with
    | Except.error _ => ([], st)
    | Except.ok l2 =>
      if l2 ≠ [] then (l2, { st with fast := backfillFast b.lsPut st.fast c l2 })
      else if st.isOnline && st.fbAvailable then
        let l3 := getAllFromFirebase b.fbOk st.fbAvailable st.remote c
        if l3 ≠ [] then
          let both := backfillBoth b.lsPut b.idbPut st.dbAvailable st.fast st.tables c l3
          (l3, { st with fast := both.1, tables := both.2 })
        else ([], st)
      else ([], st)

/-- One iteration of the syncPendingChanges loop: re-attempt the entry's
remote operation via saveToFirebase/deleteFromFirebase (with
isFirebaseAvailable() as checked by the guard); the per-entry remote
outcome is given by the oracle `ok`. On remote failure, the per-item catch
logs and the loop continues. On remote success the source then calls
store.delete(item.id) — but that call runs after an awaited network round
trip, by which point the readwrite transaction that created the store has
auto-committed, so store.delete throws TransactionInactiveError, which the
same per-item catch swallows: no queue entry is ever removed, so the step
only changes the remote tier. -/
def drainStep (avail : Bool) (ok : QEntry → Bool)
    (rem : List (Key × Rec)) (e : QEntry) : List (Key × Rec) :=
  let res :=
    match e.operation with
    | QOp.save => saveToFirebase (ok e) avail rem e.collection e.id e.data
    | QOp.del => deleteFromFirebase (ok e) avail rem e.collection e.id
  match res with
  | Except.ok rem2 => rem2
  | Except.error _ => rem

/-- DBManager.syncPendingChanges: returns untouched unless this.db and
isFirebaseAvailable(); otherwise iterates the syncQueue snapshot in store
order, re-attempting each entry's remote operation and continuing past
failures. The dequeue of successful entries always fails with a swallowed
TransactionInactiveError (see drainStep), so the queue is left unchanged. -/
def syncPendingChanges (ok : QEntry → Bool) (st : Sys) : Sys :=
  if st.dbAvailable && st.fbAvailable then
    { st with remote := st.queue.foldl (drainStep st.fbAvailable ok) st.remote }
  else st

end DBManager

/-- The key a queue entry addresses remotely. -/
def entryKey (e : QEntry) : Key :=
  (e.collection, e.id)

/-- The net remote effect of re-applying one queue entry when the remote
call succeeds: exactly what the success branch of the syncPendingChanges
loop does (a 'save' entry is ref.set of its data, a 'delete' entry is
ref.remove). -/
def applyRemote (e : QEntry) (rem : List (Key × Rec)) : List (Key × Rec) :=
  match e.operation with
  | QOp.save => fbSet e.collection e.id e.data rem
  | QOp.del => eraseA (entryKey e) rem

/-- Applying a whole queue remotely, in iteration order, with every remote
call succeeding. -/
def drainRemote (q : List QEntry) (rem : List (Key × Rec)) : List (Key × Rec) :=
  q.foldl (fun a e => applyRemote e a) rem

/-- The last entry of a queue addressing a given key. -/
def lastFor (k : Key) : List QEntry → Option QEntry
  | [] => none
  | e :: q =>
    match lastFor k q with
    | some x => some x
    | none => if entryKey e = k then some e else none

/-- The value a queue entry leaves at its key when applied remotely. -/
def entryEffect (e : QEntry) : Option Rec :=
  match e.operation with
  | QOp.save => e.data
  | QOp.del => none

/-- One localStorage-tier mutation, with its environment outcome. -/
inductive FastOp where
  | put (c id : String) (r : Rec) (o : LsWriteOutcome)
  | del (c id : String) (o : LsWriteOutcome)
deriving DecidableEq, Repr

/-- Run one localStorage-tier mutation. -/
def applyFastOp (st : LocalFast) : FastOp → LocalFast
  | FastOp.put c id r o => saveToLocalStorage o st c id r
  | FastOp.del c id o => deleteFromLocalStorage o st c id

/-- The per-collection index localStorage holds (safeJSONParse of the
`collection_index` entry, with fallback []). -/
def indexOf (st : LocalFast) (c : String) : List String :=
  (lookupA c st.index).getD []

/-!  Helper lemmas  -/

theorem lookupA_putA_self {K V : Type} [DecidableEq K] (k : K) (v : V)
    (l : List (K × V)) : lookupA k (putA k v l) = some v := by
  induction l with
  | nil => simp [putA, lookupA]
  | cons p l ih =>
    by_cases h : p.1 = k
    · simp [putA, h, lookupA]
    · simp [putA, h, lookupA, ih]

theorem lookupA_putA_ne {K V : Type} [DecidableEq K] {k k' : K} (v : V)
    (l : List (K × V)) (h : k' ≠ k) : lookupA k (putA k' v l) = lookupA k l := by
  induction l with
  | nil => simp [putA, lookupA, h]
  | cons p l ih =>
    by_cases hp : p.1 = k'
    · simp [putA, hp, lookupA, h]
    · simp [putA, hp, lookupA, ih]

theorem lookupA_eraseA_self {K V : Type} [DecidableEq K] (k : K)
    (l : List (K × V)) : lookupA k (eraseA k l) = none := by
  induction l with
  | nil => simp [eraseA, lookupA]
  | cons p l ih =>
    by_cases h : p.1 = k
    · simp [eraseA, h, ih]
    · simp [eraseA, h, lookupA, ih]

theorem lookupA_eraseA_ne {K V : Type} [DecidableEq K] {k k' : K}
    (l : List (K × V)) (h : k' ≠ k) : lookupA k (eraseA k' l) = lookupA k l := by
  induction l with
  | nil => simp [eraseA]
  | cons p l ih =>
    by_cases hp : p.1 = k'
    · simp [eraseA, hp, lookupA, ih, h]
    · simp [eraseA, hp, lookupA, ih]


theorem queueForSync_fast (a : Bool) (st : Sys) (c id : String) (d : Option Rec)
    (op : QOp) (t : Nat) : (queueForSync a st c id d op t).fast = st.fast := by
  unfold queueForSync
  split
  · rfl
  · split
    · rfl
    · split <;> rfl

theorem queueForSync_tables (a : Bool) (st : Sys) (c id : String) (d : Option Rec)
    (op : QOp) (t : Nat) : (queueForSync a st c id d op t).tables = st.tables := by
  unfold queueForSync
  split
  · rfl
  · split
    · rfl
    · split <;> rfl

theorem queueForSync_remote (a : Bool) (st : Sys) (c id : String) (d : Option Rec)
    (op : QOp) (t : Nat) : (queueForSync a st c id d op t).remote = st.remote := by
  unfold queueForSync
  split
  · rfl
  · split
    · rfl
    · split <;> rfl

theorem save_fast (b : SaveBeh) (st : Sys) (c id : String) (d : RecData) :
    (DBManager.save b st c id d).2.fast
      = saveToLocalStorage b.ls st.fast c id (stamp d b.now) := by
  unfold DBManager.save
  cases h : saveToIndexedDB b.idb st.dbAvailable st.tables c id (stamp d b.now) with
  | error e => simp [h]
  | ok tbl =>
    simp only [h]
    split
    · cases h2 : saveToFirebase b.fbOk st.fbAvailable st.remote c id
        (some (stamp d b.now)) with
      | error e => simp [h2]
      | ok rem => simp [h2]
    · simp [queueForSync_fast]

theorem getFromLocalStorage_save_ok (f : LocalFast) (c id : String) (r : Rec) :
    getFromLocalStorage false (saveToLocalStorage LsWriteOutcome.ok f c id r) c id
      = some r := by
  have h : (saveToLocalStorage LsWriteOutcome.ok f c id r).recs
      = putA (c, id) (StoredVal.good r) f.recs := by
    simp only [saveToLocalStorage]
    split <;> rfl
  simp [getFromLocalStorage, h, lookupA_putA_self]
theorem drainStep_true (ok : QEntry → Bool) (rem : List (Key × Rec))
    (e : QEntry) :
    DBManager.drainStep true ok rem e
      = if ok e then applyRemote e rem else rem := by
  cases hop : e.operation <;> by_cases h : ok e <;>
    simp [DBManager.drainStep, saveToFirebase, deleteFromFirebase, applyRemote,
      entryKey, hop, h]

theorem syncPendingChanges_queue (ok : QEntry → Bool) (st : Sys) :
    (DBManager.syncPendingChanges ok st).queue = st.queue := by
  unfold DBManager.syncPendingChanges
  split <;> rfl

theorem syncPendingChanges_remote (ok : QEntry → Bool) (st : Sys)
    (h1 : st.dbAvailable = true) (h2 : st.fbAvailable = true) :
    (DBManager.syncPendingChanges ok st).remote
      = st.queue.foldl (fun a e => if ok e then applyRemote e a else a) st.remote := by
  have hfun : DBManager.drainStep true ok
      = fun a e => if ok e then applyRemote e a else a := by
    funext a e
    exact drainStep_true ok a e
  simp [DBManager.syncPendingChanges, h1, h2, hfun]

theorem queueForSync_id_nodup (a : Bool) (st : Sys) (c id : String)
    (d : Option Rec) (op : QOp) (t : Nat)
    (hnd : (st.queue.map QEntry.id).Nodup) :
    ((queueForSync a st c id d op t).queue.map QEntry.id).Nodup := by
  unfold queueForSync
  split
  · exact hnd
  · split
    · exact hnd
    · split
      · rename_i hdb hdup hadd
        simp only [List.map_append, List.map_cons, List.map_nil]
        rw [List.nodup_append]
        refine ⟨hnd, List.nodup_singleton _, ?_⟩
        intro x hx hx2
        simp only [List.mem_singleton] at hx2
        subst hx2
        rcases List.mem_map.mp hx with ⟨e, he, hei⟩
        exact hdup (List.any_eq_true.mpr ⟨e, he, by simp [hei]⟩)
      · exact hnd

theorem lookupA_applyRemote (e : QEntry) (rem : List (Key × Rec)) (k : Key) :
    lookupA k (applyRemote e rem)
      = if entryKey e = k then entryEffect e else lookupA k rem := by
  by_cases h : entryKey e = k
  · subst h
    cases hop : e.operation with
    | save =>
      cases hd : e.data with
      | some r =>
        simp [applyRemote, fbSet, entryEffect, entryKey, hop, hd, lookupA_putA_self]
      | none =>
        simp [applyRemote, fbSet, entryEffect, entryKey, hop, hd, lookupA_eraseA_self]
    | del => simp [applyRemote, entryEffect, entryKey, hop, lookupA_eraseA_self]
  · have h' : (e.collection, e.id) ≠ k := h
    cases hop : e.operation with
    | save =>
      cases hd : e.data with
      | some r => simp [applyRemote, fbSet, hop, hd, h, lookupA_putA_ne r rem h']
      | none => simp [applyRemote, fbSet, hop, hd, h, lookupA_eraseA_ne rem h']
    | del => simp [applyRemote, entryKey, hop, h, h', lookupA_eraseA_ne rem h']

theorem lookupA_drainRemote (q : List QEntry) :
    ∀ (rem : List (Key × Rec)) (k : Key),
      lookupA k (drainRemote q rem)
        = (lastFor k q).elim (lookupA k rem) entryEffect := by
  induction q with
  | nil => intro rem k; simp [drainRemote, lastFor]
  | cons e q ih =>
    intro rem k
    have h1 : drainRemote (e :: q) rem = drainRemote q (applyRemote e rem) := rfl
    rw [h1, ih]
    cases hlf : lastFor k q with
    | some x => simp [lastFor, hlf]
    | none =>
      rw [lookupA_applyRemote]
      by_cases hk : entryKey e = k <;> simp [lastFor, hlf, hk]

theorem lookupA_drainRemote_idem (q : List QEntry) (rem : List (Key × Rec))
    (k : Key) :
    lookupA k (drainRemote q (drainRemote q rem))
      = lookupA k (drainRemote q rem) := by
  rw [lookupA_drainRemote q (drainRemote q rem) k, lookupA_drainRemote q rem k]
  cases lastFor k q <;> simp
theorem saveToLocalStorage_index_nodup (o : LsWriteOutcome) (f : LocalFast)
    (c id : String) (r : Rec) (h : ∀ c', (indexOf f c').Nodup) (c' : String) :
    (indexOf (saveToLocalStorage o f c id r) c').Nodup := by
  cases o with
  | failEarly => exact h c'
  | failLate => exact h c'
  | ok =>
    simp only [saveToLocalStorage]
    split
    · exact h c'
    · rename_i hmem
      by_cases hc : c = c'
      · subst hc
        have hnd := h c
        simp only [indexOf] at hnd ⊢
        simp only [lookupA_putA_self, Option.getD_some]
        rw [List.nodup_append]
        refine ⟨hnd, List.nodup_singleton id, ?_⟩
        intro a ha hb
        simp only [List.mem_singleton] at hb
        subst hb
        exact hmem ha
      · simp only [indexOf, lookupA_putA_ne _ _ hc]
        exact h c'

theorem deleteFromLocalStorage_index_nodup (o : LsWriteOutcome) (f : LocalFast)
    (c id : String) (h : ∀ c', (indexOf f c').Nodup) (c' : String) :
    (indexOf (deleteFromLocalStorage o f c id) c').Nodup := by
  cases o with
  | failEarly => exact h c'
  | failLate => exact h c'
  | ok =>
    simp only [deleteFromLocalStorage]
    by_cases hc : c = c'
    · subst hc
      simp only [indexOf, lookupA_putA_self, Option.getD_some]
      exact (h c).filter _
    · simp only [indexOf, lookupA_putA_ne _ _ hc]
      exact h c'

theorem applyFastOp_nodup (f : LocalFast) (op : FastOp)
    (h : ∀ c', (indexOf f c').Nodup) (c' : String) :
    (indexOf (applyFastOp f op) c').Nodup := by
  cases op with
  | put c id r o => exact saveToLocalStorage_index_nodup o f c id r h c'
  | del c id o => exact deleteFromLocalStorage_index_nodup o f c id h c'
/-!  Claim theorems  -/

/-- C1 (counterexample): with connectivity true, Firebase available and the
remote set failing, a concrete save throws the error to its caller and adds
no entry to the sync queue — contradicting the claim that the failure is
queued and not surfaced. -/
theorem C1_counterexample :
    (DBManager.save ⟨9, LsWriteOutcome.ok, IdbOutcome.ok, false, true⟩
        ⟨⟨[], []⟩, true, [], [], [], true, true⟩ "groups" "G1" ⟨"G1", "alpha"⟩).1
      = Except.error ()
    ∧ (DBManager.save ⟨9, LsWriteOutcome.ok, IdbOutcome.ok, false, true⟩
        ⟨⟨[], []⟩, true, [], [], [], true, true⟩ "groups" "G1" ⟨"G1", "alpha"⟩).2.queue
      = [] :=
  ⟨rfl, rfl⟩

/-- C1 (amended): when connectivity is true, Firebase is available and the
remote write fails (the IndexedDB put itself not rejecting), save rethrows
the error to the caller and leaves the Pending-Write Queue untouched:
queueing happens only on the offline/unavailable branch. -/
theorem C1_online_remote_failure_throws_and_skips_queue (b : SaveBeh) (st : Sys)
    (c id : String) (d : RecData) (hOn : st.isOnline = true)
    (hFb : st.fbAvailable = true) (hfb : b.fbOk = false)
    (hidb : b.idb ≠ IdbOutcome.reject) :
    (DBManager.save b st c id d).1 = Except.error ()
    ∧ (DBManager.save b st c id d).2.queue = st.queue := by
  cases hdb : st.dbAvailable <;> cases hb : b.idb <;>
    simp_all [DBManager.save, saveToIndexedDB, saveToFirebase]

/-- C1 (witness): the amended theorem applied at a concrete online state
whose remote write fails. -/
theorem C1_witness :
    (DBManager.save ⟨5, LsWriteOutcome.ok, IdbOutcome.caught, false, true⟩
        ⟨⟨[], []⟩, true, [], [], [], true, true⟩ "teams" "T1" ⟨"T1", "x"⟩).1
      = Except.error ()
    ∧ (DBManager.save ⟨5, LsWriteOutcome.ok, IdbOutcome.caught, false, true⟩
        ⟨⟨[], []⟩, true, [], [], [], true, true⟩ "teams" "T1" ⟨"T1", "x"⟩).2.queue
      = [] :=
  C1_online_remote_failure_throws_and_skips_queue
    ⟨5, LsWriteOutcome.ok, IdbOutcome.caught, false, true⟩
    ⟨⟨[], []⟩, true, [], [], [], true, true⟩ "teams" "T1" ⟨"T1", "x"⟩
    rfl rfl rfl (by decide)

/-- C2 (counterexample): with the fast tier empty, a durable record with
updatedAt 10 and a remote record with updatedAt 20 for the same key, getAll
returns the durable version and backfills the fast tier with updatedAt 10;
the remote version is not returned — contradicting the claimed
greater-updatedAt merge. -/
theorem C2_counterexample :
    (DBManager.getAll ⟨false, IdbOutcome.ok, true, LsWriteOutcome.ok, IdbOutcome.ok⟩
        ⟨⟨[], []⟩, true, [(("teams", "K"), ⟨"K", "a", 10⟩)], [],
          [(("teams", "K"), ⟨"K", "b", 20⟩)], true, true⟩ "teams").1
      = [⟨"K", "a", 10⟩]
    ∧ lookupA ("teams", "K")
        (DBManager.getAll ⟨false, IdbOutcome.ok, true, LsWriteOutcome.ok, IdbOutcome.ok⟩
          ⟨⟨[], []⟩, true, [(("teams", "K"), ⟨"K", "a", 10⟩)], [],
            [(("teams", "K"), ⟨"K", "b", 20⟩)], true, true⟩ "teams").2.fast.recs
      = some (StoredVal.good ⟨"K", "a", 10⟩)
    ∧ (DBManager.getAll ⟨false, IdbOutcome.ok, true, LsWriteOutcome.ok, IdbOutcome.ok⟩
        ⟨⟨[], []⟩, true, [(("teams", "K"), ⟨"K", "a", 10⟩)], [],
          [(("teams", "K"), ⟨"K", "b", 20⟩)], true, true⟩ "teams").1
      ≠ [⟨"K", "b", 20⟩] :=
  ⟨rfl, rfl, by decide⟩

/-- C2 (amended): getAll performs no updatedAt merge; it returns the full
contents of the first tier that answers non-empty, in the order fast store,
durable store, remote store. In particular, when the fast tier answers
empty and the durable table for the collection is non-empty, getAll returns
exactly the durable records and backfills only the fast tier with them,
never consulting or preferring a newer remote version. -/
theorem C2_getAll_returns_first_nonempty_tier (b : DBManager.GetAllBeh) (st : Sys)
    (c : String) (h1 : getAllFromLocalStorage b.lsThrows st.fast c = [])
    (h2 : b.idbAll = IdbOutcome.ok) (h3 : st.dbAvailable = true)
    (h4 : tablesOf st.tables c ≠ []) :
    DBManager.getAll b st c
      = (tablesOf st.tables c,
         { st with fast := (DBManager.backfillFast b.lsPut st.fast c
            (tablesOf st.tables c)) }) := by
  simp [DBManager.getAll, getAllFromIndexedDB, h1, h2, h3, h4]

/-- C2 (witness): the amended theorem applied at a concrete state whose fast
tier is empty and whose durable table holds one record, while a newer remote
record exists. -/
theorem C2_witness :
    getAllFromLocalStorage false (⟨[], []⟩ : LocalFast) "groups" = []
    ∧ tablesOf [(("groups", "G"), (⟨"G", "p", 10⟩ : Rec))] "groups" ≠ []
    ∧ DBManager.getAll ⟨false, IdbOutcome.ok, true, LsWriteOutcome.ok, IdbOutcome.ok⟩
        ⟨⟨[], []⟩, true, [(("groups", "G"), ⟨"G", "p", 10⟩)], [],
          [(("groups", "G"), ⟨"G", "q", 20⟩)], true, true⟩ "groups"
      = (tablesOf [(("groups", "G"), ⟨"G", "p", 10⟩)] "groups",
         ⟨DBManager.backfillFast LsWriteOutcome.ok ⟨[], []⟩ "groups"
            (tablesOf [(("groups", "G"), ⟨"G", "p", 10⟩)] "groups"),
          true, [(("groups", "G"), ⟨"G", "p", 10⟩)], [],
          [(("groups", "G"), ⟨"G", "q", 20⟩)], true, true⟩) := by
  refine ⟨rfl, by decide, ?_⟩
  exact C2_getAll_returns_first_nonempty_tier
    ⟨false, IdbOutcome.ok, true, LsWriteOutcome.ok, IdbOutcome.ok⟩
    ⟨⟨[], []⟩, true, [(("groups", "G"), ⟨"G", "p", 10⟩)], [],
      [(("groups", "G"), ⟨"G", "q", 20⟩)], true, true⟩ "groups"
    rfl rfl rfl (by decide)

/-- C3: during any single drain of a queue the syncQueue store can
represent (entry keys — the record ids — are pairwise distinct, the
invariant the keyPath-'id' store enforces and queueForSync preserves), an
entry whose remote re-attempt fails stays in the queue — indeed the drain
removes no entry at all, since the dequeue call always dies with a
swallowed TransactionInactiveError — and no two attempted entries share a
(collection, recordId) pair, so no later entry for the same pair is
attempted in that drain and same-key entries are never applied remotely
out of order. -/
theorem C3_failed_entries_stay_and_no_same_pair_attempted (ok : QEntry → Bool)
    (st : Sys) (hnd : (st.queue.map QEntry.id).Nodup) :
    (DBManager.syncPendingChanges ok st).queue = st.queue
    ∧ st.queue.Pairwise (fun a b => entryKey a ≠ entryKey b) := by
  refine ⟨syncPendingChanges_queue ok st, ?_⟩
  have h := List.pairwise_map.mp hnd
  exact h.imp (fun hab hk => hab (congrArg Prod.snd hk))

/-- C3 (witness): the theorem applied to a concrete representable two-entry
queue whose first entry fails its remote re-attempt. -/
theorem C3_witness :
    (([⟨"teams", "A", some ⟨"A", "u", 3⟩, QOp.save, 3⟩,
       ⟨"teams", "B", none, QOp.del, 4⟩] : List QEntry).map QEntry.id).Nodup
    ∧ ((DBManager.syncPendingChanges (fun e => e.timestamp == 4)
          ⟨⟨[], []⟩, true, [],
            [⟨"teams", "A", some ⟨"A", "u", 3⟩, QOp.save, 3⟩,
             ⟨"teams", "B", none, QOp.del, 4⟩], [], true, true⟩).queue
        = [⟨"teams", "A", some ⟨"A", "u", 3⟩, QOp.save, 3⟩,
           ⟨"teams", "B", none, QOp.del, 4⟩]
      ∧ ([⟨"teams", "A", some ⟨"A", "u", 3⟩, QOp.save, 3⟩,
          ⟨"teams", "B", none, QOp.del, 4⟩] : List QEntry).Pairwise
          (fun a b => entryKey a ≠ entryKey b)) :=
  ⟨by decide,
   C3_failed_entries_stay_and_no_same_pair_attempted (fun e => e.timestamp == 4)
     ⟨⟨[], []⟩, true, [],
       [⟨"teams", "A", some ⟨"A", "u", 3⟩, QOp.save, 3⟩,
        ⟨"teams", "B", none, QOp.del, 4⟩], [], true, true⟩ (by decide)⟩

/-- C4 (code bug): two sequential offline saves to the same record id are
not both enqueued. The second save still reports success, but the syncQueue
store is keyed by the entry's `id` field (the record id), so the second add
hits an existing key, fails, and is dropped: the queue holds only the first
write, and after an all-success drain the Remote Store holds the first
payload ("Bulls"), not the second ("Chicago Bulls") as the claim (and
spec scenario B) requires. -/
theorem C4_second_offline_save_dropped :
    (DBManager.save ⟨2, LsWriteOutcome.ok, IdbOutcome.ok, true, true⟩
        (DBManager.save ⟨1, LsWriteOutcome.ok, IdbOutcome.ok, true, true⟩
          ⟨⟨[], []⟩, true, [], [], [], false, true⟩ "teams" "K" ⟨"K", "Bulls"⟩).2
        "teams" "K" ⟨"K", "Chicago Bulls"⟩).1
      = Except.ok (JsVal.bool true)
    ∧ (DBManager.save ⟨2, LsWriteOutcome.ok, IdbOutcome.ok, true, true⟩
        (DBManager.save ⟨1, LsWriteOutcome.ok, IdbOutcome.ok, true, true⟩
          ⟨⟨[], []⟩, true, [], [], [], false, true⟩ "teams" "K" ⟨"K", "Bulls"⟩).2
        "teams" "K" ⟨"K", "Chicago Bulls"⟩).2.queue
      = [⟨"teams", "K", some ⟨"K", "Bulls", 1⟩, QOp.save, 1⟩]
    ∧ lookupA ("teams", "K")
        (DBManager.syncPendingChanges (fun _ => true)
          (DBManager.save ⟨2, LsWriteOutcome.ok, IdbOutcome.ok, true, true⟩
            (DBManager.save ⟨1, LsWriteOutcome.ok, IdbOutcome.ok, true, true⟩
              ⟨⟨[], []⟩, true, [], [], [], false, true⟩ "teams" "K"
              ⟨"K", "Bulls"⟩).2
            "teams" "K" ⟨"K", "Chicago Bulls"⟩).2).remote
      = some ⟨"K", "Bulls", 1⟩
    ∧ lookupA ("teams", "K")
        (DBManager.syncPendingChanges (fun _ => true)
          (DBManager.save ⟨2, LsWriteOutcome.ok, IdbOutcome.ok, true, true⟩
            (DBManager.save ⟨1, LsWriteOutcome.ok, IdbOutcome.ok, true, true⟩
              ⟨⟨[], []⟩, true, [], [], [], false, true⟩ "teams" "K"
              ⟨"K", "Bulls"⟩).2
            "teams" "K" ⟨"K", "Chicago Bulls"⟩).2).remote
      ≠ some ⟨"K", "Chicago Bulls", 2⟩ :=
  ⟨rfl, rfl, rfl, by decide⟩

/-- C5 (counterexample): a save during which the fast-tier write threw, the
durable store is unavailable and the system is offline still completes
successfully, and the immediately following get (all tiers behaving) returns
null rather than a record at least as new as the stamp. -/
theorem C5_counterexample :
    (DBManager.save ⟨7, LsWriteOutcome.failEarly, IdbOutcome.ok, true, true⟩
        ⟨⟨[], []⟩, false, [], [], [], false, false⟩ "teams" "K" ⟨"K", "x"⟩).1
      = Except.ok (JsVal.bool true)
    ∧ (DBManager.get ⟨false, IdbOutcome.ok, true, LsWriteOutcome.ok, IdbOutcome.ok⟩
        (DBManager.save ⟨7, LsWriteOutcome.failEarly, IdbOutcome.ok, true, true⟩
          ⟨⟨[], []⟩, false, [], [], [], false, false⟩ "teams" "K" ⟨"K", "x"⟩).2
        "teams" "K").1
      = Except.ok none :=
  ⟨rfl, rfl⟩

/-- C5 (amended): after a save whose fast-tier write succeeded, an
immediately following get whose own fast-tier read does not throw returns
the stamped record — whose updatedAt equals (hence is at least) the
timestamp the save stamped — without touching any state. -/
theorem C5_get_after_save_returns_stamped (b : SaveBeh) (g : DBManager.GetBeh)
    (st : Sys) (c id : String) (d : RecData)
    (hls : b.ls = LsWriteOutcome.ok) (hg : g.lsGetThrows = false) :
    DBManager.get g (DBManager.save b st c id d).2 c id
      = (Except.ok (some (stamp d b.now)), (DBManager.save b st c id d).2)
    ∧ b.now ≤ (stamp d b.now).updatedAt := by
  constructor
  · have hf := save_fast b st c id d
    rw [hls] at hf
    have hget : getFromLocalStorage g.lsGetThrows
        (DBManager.save b st c id d).2.fast c id = some (stamp d b.now) := by
      rw [hg, hf]
      exact getFromLocalStorage_save_ok _ _ _ _
    unfold DBManager.get DBManager.getBody
    rw [hget]
  · exact le_refl _

/-- C5 (witness): the amended theorem applied to a concrete offline save
followed by a get. -/
theorem C5_witness :
    DBManager.get ⟨false, IdbOutcome.ok, true, LsWriteOutcome.ok, IdbOutcome.ok⟩
        (DBManager.save ⟨4, LsWriteOutcome.ok, IdbOutcome.ok, true, true⟩
          ⟨⟨[], []⟩, true, [], [], [], false, true⟩ "players" "P1" ⟨"P1", "pp"⟩).2
        "players" "P1"
      = (Except.ok (some (stamp ⟨"P1", "pp"⟩ 4)),
         (DBManager.save ⟨4, LsWriteOutcome.ok, IdbOutcome.ok, true, true⟩
          ⟨⟨[], []⟩, true, [], [], [], false, true⟩ "players" "P1" ⟨"P1", "pp"⟩).2) :=
  (C5_get_after_save_returns_stamped
    ⟨4, LsWriteOutcome.ok, IdbOutcome.ok, true, true⟩
    ⟨false, IdbOutcome.ok, true, LsWriteOutcome.ok, IdbOutcome.ok⟩
    ⟨⟨[], []⟩, true, [], [], [], false, true⟩ "players" "P1" ⟨"P1", "pp"⟩
    rfl rfl).1

/-- C6 (counterexample): a fully successful concrete save returns the
boolean true, not the stamped record. -/
theorem C6_counterexample :
    (DBManager.save ⟨3, LsWriteOutcome.ok, IdbOutcome.ok, true, true⟩
        ⟨⟨[], []⟩, true, [], [], [], false, false⟩ "teams" "K" ⟨"K", "x"⟩).1
      = Except.ok (JsVal.bool true)
    ∧ (DBManager.save ⟨3, LsWriteOutcome.ok, IdbOutcome.ok, true, true⟩
        ⟨⟨[], []⟩, true, [], [], [], false, false⟩ "teams" "K" ⟨"K", "x"⟩).1
      ≠ Except.ok (JsVal.record (stamp ⟨"K", "x"⟩ 3)) :=
  ⟨rfl, by decide⟩

/-- C6 (amended): on a fully successful online save, the value returned to
the caller is the boolean true; the stamped record — the input data with
updatedAt set to the timestamp taken at the start of the save — is what is
written to the fast tier and to the Remote Store, not what is returned. -/
theorem C6_save_returns_true_not_record (b : SaveBeh) (st : Sys) (c id : String)
    (d : RecData) (hls : b.ls = LsWriteOutcome.ok) (hidb : b.idb = IdbOutcome.ok)
    (hdb : st.dbAvailable = true) (hOn : st.isOnline = true)
    (hFb : st.fbAvailable = true) (hfb : b.fbOk = true) :
    (DBManager.save b st c id d).1 = Except.ok (JsVal.bool true)
    ∧ getFromLocalStorage false (DBManager.save b st c id d).2.fast c id
        = some (stamp d b.now)
    ∧ lookupA (c, id) (DBManager.save b st c id d).2.remote
        = some (stamp d b.now) := by
  refine ⟨?_, ?_, ?_⟩
  · simp [DBManager.save, saveToIndexedDB, saveToFirebase, hls, hidb, hdb, hOn,
      hFb, hfb]
  · have hf := save_fast b st c id d
    rw [hls] at hf
    rw [hf]
    exact getFromLocalStorage_save_ok _ _ _ _
  · simp [DBManager.save, saveToIndexedDB, saveToFirebase, fbSet, hls, hidb,
      hdb, hOn, hFb, hfb, lookupA_putA_self]

/-- C6 (witness): the amended theorem applied to a concrete online save. -/
theorem C6_witness :
    (DBManager.save ⟨6, LsWriteOutcome.ok, IdbOutcome.ok, true, true⟩
        ⟨⟨[], []⟩, true, [], [], [], true, true⟩ "groups" "G2" ⟨"G2", "y"⟩).1
      = Except.ok (JsVal.bool true)
    ∧ getFromLocalStorage false
        (DBManager.save ⟨6, LsWriteOutcome.ok, IdbOutcome.ok, true, true⟩
          ⟨⟨[], []⟩, true, [], [], [], true, true⟩ "groups" "G2" ⟨"G2", "y"⟩).2.fast
        "groups" "G2"
      = some (stamp ⟨"G2", "y"⟩ 6)
    ∧ lookupA ("groups", "G2")
        (DBManager.save ⟨6, LsWriteOutcome.ok, IdbOutcome.ok, true, true⟩
          ⟨⟨[], []⟩, true, [], [], [], true, true⟩ "groups" "G2" ⟨"G2", "y"⟩).2.remote
      = some (stamp ⟨"G2", "y"⟩ 6) :=
  C6_save_returns_true_not_record
    ⟨6, LsWriteOutcome.ok, IdbOutcome.ok, true, true⟩
    ⟨⟨[], []⟩, true, [], [], [], true, true⟩ "groups" "G2" ⟨"G2", "y"⟩
    rfl rfl rfl rfl rfl rfl

/-- C7 (code bug): at the state where the fast-tier write throws, the
durable store is unavailable and the system is offline with Firebase
unavailable, save returns success and every tier — including the queue —
is left exactly as before: the write is silently dropped with no durable
record and no queue entry, instead of being surfaced as a failure. -/
theorem C7_save_reports_success_with_no_durable_record :
    DBManager.save ⟨7, LsWriteOutcome.failEarly, IdbOutcome.ok, true, true⟩
        ⟨⟨[], []⟩, false, [], [], [], false, false⟩ "teams" "K" ⟨"K", "x"⟩
      = (Except.ok (JsVal.bool true),
         ⟨⟨[], []⟩, false, [], [], [], false, false⟩) :=
  rfl
/-- Helper for C8: with every remote call succeeding, the drained remote
state is the fold of the queue's operations over the starting remote. -/
theorem syncPendingChanges_remote_allOk (s : Sys) (hs1 : s.dbAvailable = true)
    (hs2 : s.fbAvailable = true) :
    (DBManager.syncPendingChanges (fun _ => true) s).remote
      = drainRemote s.queue s.remote := by
  rw [syncPendingChanges_remote _ _ hs1 hs2]
  have hfun : (fun (a : List (Key × Rec)) (e : QEntry) =>
      if (fun (_ : QEntry) => true) e then applyRemote e a else a)
        = fun a e => applyRemote e a := by
    funext a e
    simp
  rw [hfun]
  rfl

/-- C8: draining a queue whose entries have already been applied remotely
(the remote already holds the result of a completed drain — a crash after
remote success but before dequeue) leaves the Remote Store observably
unchanged at every key: re-applying queued saves and deletes is idempotent
on the remote tier. -/
theorem C8_drain_idempotent_on_remote (st : Sys) (h1 : st.dbAvailable = true)
    (h2 : st.fbAvailable = true) :
    ∀ k : Key,
      lookupA k (DBManager.syncPendingChanges (fun _ => true)
          { st with remote :=
            (DBManager.syncPendingChanges (fun _ => true) st).remote }).remote
        = lookupA k (DBManager.syncPendingChanges (fun _ => true) st).remote := by
  intro k
  rw [syncPendingChanges_remote_allOk
      { st with remote := (DBManager.syncPendingChanges (fun _ => true) st).remote }
      h1 h2,
    syncPendingChanges_remote_allOk st h1 h2]
  exact lookupA_drainRemote_idem st.queue st.remote k

/-- C8 (witness): the theorem applied at a concrete crashed-drain state. -/
theorem C8_witness :
    lookupA ("teams", "A")
      (DBManager.syncPendingChanges (fun _ => true)
        { (⟨⟨[], []⟩, true, [],
            [⟨"teams", "A", some ⟨"A", "w", 5⟩, QOp.save, 5⟩,
             ⟨"teams", "B", none, QOp.del, 6⟩], [], true, true⟩ : Sys) with
          remote :=
            (DBManager.syncPendingChanges (fun _ => true)
              ⟨⟨[], []⟩, true, [],
                [⟨"teams", "A", some ⟨"A", "w", 5⟩, QOp.save, 5⟩,
                 ⟨"teams", "B", none, QOp.del, 6⟩], [], true, true⟩).remote }).remote
      = lookupA ("teams", "A")
          (DBManager.syncPendingChanges (fun _ => true)
            ⟨⟨[], []⟩, true, [],
              [⟨"teams", "A", some ⟨"A", "w", 5⟩, QOp.save, 5⟩,
               ⟨"teams", "B", none, QOp.del, 6⟩], [], true, true⟩).remote :=
  C8_drain_idempotent_on_remote
    ⟨⟨[], []⟩, true, [],
      [⟨"teams", "A", some ⟨"A", "w", 5⟩, QOp.save, 5⟩,
       ⟨"teams", "B", none, QOp.del, 6⟩], [], true, true⟩
    rfl rfl ("teams", "A")

/-- C9: starting from a state whose per-collection fast-store indexes are
duplicate-free, any sequence of fast-tier puts and deletes (under any
environment outcomes) preserves duplicate-freeness of every collection's
index: a put appends the id only when absent and a delete filters out all
of its occurrences. -/
theorem C9_fast_index_nodup_preserved (ops : List FastOp) (st : LocalFast)
    (h : ∀ c, (indexOf st c).Nodup) :
    ∀ c, (indexOf (ops.foldl applyFastOp st) c).Nodup := by
  induction ops generalizing st with
  | nil => exact h
  | cons op ops ih =>
    intro c
    exact ih (applyFastOp st op) (fun c' => applyFastOp_nodup st op h c') c

/-- C9 (witness): the theorem applied to a concrete operation sequence with
a repeated put and a delete, starting from the empty fast store. -/
theorem C9_witness :
    (∀ c, (indexOf (⟨[], []⟩ : LocalFast) c).Nodup)
    ∧ (indexOf
        (([FastOp.put "teams" "A" ⟨"A", "x", 1⟩ LsWriteOutcome.ok,
           FastOp.put "teams" "A" ⟨"A", "y", 2⟩ LsWriteOutcome.ok,
           FastOp.put "teams" "B" ⟨"B", "z", 3⟩ LsWriteOutcome.ok,
           FastOp.del "teams" "A" LsWriteOutcome.ok] : List FastOp).foldl
          applyFastOp ⟨[], []⟩) "teams").Nodup := by
  have hinit : ∀ c, (indexOf (⟨[], []⟩ : LocalFast) c).Nodup := by
    intro c
    simp [indexOf, lookupA]
  exact ⟨hinit,
    C9_fast_index_nodup_preserved
      [FastOp.put "teams" "A" ⟨"A", "x", 1⟩ LsWriteOutcome.ok,
       FastOp.put "teams" "A" ⟨"A", "y", 2⟩ LsWriteOutcome.ok,
       FastOp.put "teams" "B" ⟨"B", "z", 3⟩ LsWriteOutcome.ok,
       FastOp.del "teams" "A" LsWriteOutcome.ok] ⟨[], []⟩ hinit "teams"⟩

/-- C10: for every behaviour of the underlying tiers — localStorage reads
throwing, IndexedDB requests rejecting, Firebase failing, corrupt stored
entries — the coordinator's get never propagates an error: it always
returns an Except.ok result (a null on every internal failure path). -/
theorem C10_get_never_throws (b : DBManager.GetBeh) (st : Sys) (c id : String) :
    ∃ (v : Option Rec) (st' : Sys),
      DBManager.get b st c id = (Except.ok v, st') := by
  rcases hgb : DBManager.getBody b st c id with ⟨r, st2⟩
  cases r with
  | error e =>
    refine ⟨none, st2, ?_⟩
    unfold DBManager.get
    rw [hgb]
  | ok v =>
    refine ⟨v, st2, ?_⟩
    unfold DBManager.get
    rw [hgb]

end Hoopin
